import Mathlib

/-!
Shallow embedding of the `blogicum` Django blog application
(`blog/views.py`), together with proofs about its visibility,
pagination, permission and CRUD behaviour.

The relational store is modelled by explicit lists of rows; the current
time is an explicit integer parameter; the current viewer is an
`Option Nat` user id (`none` = anonymous).  Each Django view function is
translated into a pure Lean function over that state; handlers that
mutate the store return the outcome together with the new store.
-/

namespace Blogicum

/-- A user row: primary key and unique username
(the data model is the standard Django one used by `blog/views.py`). -/
structure User where
  id : Nat
  username : String
deriving DecidableEq

/-- A category row: primary key, unique slug, `is_published` flag. -/
structure Category where
  id : Nat
  slug : String
  is_published : Bool
deriving DecidableEq

/-- A post row: primary key, author FK, category FK, publication date
(an integer timestamp) and `is_published` flag. -/
structure Post where
  id : Nat
  author : Nat
  category : Nat
  pub_date : Int
  is_published : Bool
deriving DecidableEq

/-- A comment row: primary key, author FK, post FK. -/
structure Comment where
  id : Nat
  author : Nat
  post : Nat
deriving DecidableEq

/-- `category__is_published=True` as used in the query filters: the join
finds the category row by primary key and checks its flag (an absent row
never matches the join). -/
def categoryIsPublished (cats : List Category) (cid : Nat) : Bool :=
  ((cats.find? fun c => c.id == cid).map fun c => c.is_published).getD false

/-- The public-visibility filter used throughout `views.py`:
`is_published=True, pub_date__lte=now, category__is_published=True`. -/
def publiclyVisible (cats : List Category) (now : Int) (p : Post) : Bool :=
  p.is_published && decide (p.pub_date ≤ now) && categoryIsPublished cats p.category

/-- `Count('comments')`: the number of comment rows whose `post` FK is `pid`. -/
def commentCount (comments : List Comment) (pid : Nat) : Nat :=
  (comments.filter fun c => c.post == pid).length

/-- `annotate(comment_count=Count('comments'))` applied to one post. -/
def annotate (comments : List Comment) (p : Post) : Post × Nat :=
  (p, commentCount comments p.id)

/-- `order_by('-pub_date')`: `a` may precede `b` iff `a.pub_date ≥ b.pub_date`. -/
def pubDateGE (a b : Post × Nat) : Prop :=
  b.1.pub_date ≤ a.1.pub_date

instance : DecidableRel pubDateGE :=
  fun a b => inferInstanceAs (Decidable (b.1.pub_date ≤ a.1.pub_date))

instance : IsTotal (Post × Nat) pubDateGE :=
  ⟨fun a b => le_total b.1.pub_date a.1.pub_date⟩

instance : IsTrans (Post × Nat) pubDateGE :=
  ⟨fun _ _ _ hab hbc => le_trans hbc hab⟩

/-- `get_annotated_posts(post_objects, show_all)` from `blog/views.py`:
optionally filter to publicly visible posts, annotate each with its
comment count, and order by `pub_date` descending (the relational
store's `ORDER BY` is modelled by a sort along `pubDateGE`). -/
def get_annotated_posts (posts : List Post) (comments : List Comment)
    (cats : List Category) (now : Int) (show_all : Bool) : List (Post × Nat) :=
  let ps := if show_all then posts else posts.filter (publiclyVisible cats now)
  List.insertionSort pubDateGE (ps.map (annotate comments))

/-- The `page` request parameter: absent, present but not an integer
literal, or an integer. -/
inductive PageParam where
  | missing
  | notInt
  | num (n : Int)
deriving DecidableEq

/-- `Paginator.num_pages` (orphans `0`, `allow_empty_first_page=True`):
`ceil(max 1 count / per)`. -/
def numPages (count per : Nat) : Nat :=
  (max 1 count + (per - 1)) / per

/-- `Paginator.get_page`: a non-integer (or absent) parameter falls back
to page `1`; an integer below `1` or above `num_pages` falls back to the
last page. -/
def resolvePage (count per : Nat) (param : PageParam) : Nat :=
  match param with
  | .missing => 1
  | .notInt => 1
  | .num n =>
    if n < 1 then numPages count per
    else if (numPages count per : Int) < n then numPages count per
    else n.toNat

/-- `get_paginator(request, items, num=10)` from `blog/views.py`:
resolve the page number as `Paginator.get_page` does and return it with
the corresponding 1-based slice of size `num` (`num` defaults to 10 in
the source; every call site uses that default, passed explicitly here). -/
def get_paginator {α : Type} (items : List α) (param : PageParam) (num : Nat) :
    Nat × List α :=
  let page := resolvePage items.length num param
  (page, (items.drop ((page - 1) * num)).take num)

/-- Outcome of the post-detail view. -/
inductive DetailResult where
  | render (p : Post)
  | notFound
  | forbidden
deriving DecidableEq

/-- Outcome of a mutating handler. -/
inductive Outcome where
  | render
  | notFound
  | forbidden
  | redirectDetail (post_id : Nat)
  | redirectIndex
  | redirectProfile (user_id : Nat)
deriving DecidableEq

/-- `post_detail(request, post_id)`: an authenticated viewer first
fetches the post unconditionally and, when neither its author nor the
post publicly visible, refetches from the publicly-visible queryset
restricted to the same id (yielding 404); an anonymous viewer fetches
from the publicly-visible queryset directly. -/
def post_detail (posts : List Post) (cats : List Category)
    (viewer : Option Nat) (now : Int) (post_id : Nat) : DetailResult :=
  match viewer with
  | some u =>
    match posts.find? (fun p => p.id == post_id) with
    | none => .notFound
    | some post =>
      if post.author == u then .render post
      else if publiclyVisible cats now post then .render post
      else
        match (posts.filter fun p =>
            p.id == post_id && publiclyVisible cats now p).head? with
        | none => .notFound
        | some p2 => .render p2
  | none =>
    match (posts.filter (publiclyVisible cats now)).find?
        (fun p => p.id == post_id) with
    | none => .notFound
    | some post => .render post

/-- The `post_list` computed by `category_posts(request, category_slug)`:
`get_object_or_404` on `slug=category_slug, is_published=True`, then the
annotated publicly-visible posts of that category (`none` models the
404). -/
def categoryPostsList (cats : List Category) (posts : List Post)
    (comments : List Comment) (now : Int) (slug : String) :
    Option (List (Post × Nat)) :=
  match cats.find? (fun c => c.slug == slug && c.is_published) with
  | none => none
  | some cat =>
    some (get_annotated_posts (posts.filter fun p => p.category == cat.id)
      comments cats now false)

/-- `category_posts(request, category_slug)`: the paginated page over
that list. -/
def category_posts (cats : List Category) (posts : List Post)
    (comments : List Comment) (now : Int) (slug : String)
    (page : PageParam) : Option (Nat × List (Post × Nat)) :=
  (categoryPostsList cats posts comments now slug).map
    (fun l => get_paginator l page 10)

/-- The `posts_list` computed by `profile(request, username)`:
`get_object_or_404` on the username, then the user's posts with
`show_all` exactly when the viewer is authenticated and is that user
(`none` models the 404). -/
def profilePostsList (users : List User) (posts : List Post)
    (comments : List Comment) (cats : List Category)
    (viewer : Option Nat) (now : Int) (username : String) :
    Option (List (Post × Nat)) :=
  match users.find? (fun u => u.username == username) with
  | none => none
  | some u =>
    some (get_annotated_posts (posts.filter fun p => p.author == u.id)
      comments cats now (viewer == some u.id))

/-- `profile(request, username)`: the paginated page over that list. -/
def profile (users : List User) (posts : List Post)
    (comments : List Comment) (cats : List Category)
    (viewer : Option Nat) (now : Int) (username : String)
    (page : PageParam) : Option (Nat × List (Post × Nat)) :=
  (profilePostsList users posts comments cats viewer now username).map
    (fun l => get_paginator l page 10)

/-- `create_post(request)` for an authenticated user `user`: on a valid
POST the form's post is saved with `author` set to the requesting user
and the handler redirects to the author's profile; otherwise it renders
the form. -/
def create_post (posts : List Post) (user : Nat)
    (is_post_method form_valid : Bool) (form_post : Post) :
    Outcome × List Post :=
  if is_post_method && form_valid then
    (.redirectProfile user, posts ++ [{ form_post with author := user }])
  else
    (.render, posts)

/-- `delete_post(request, post_id)` for an authenticated user: 404 if
the post does not exist; a non-author is redirected to the post's
detail view; on POST the author deletes the row and is redirected to
the index; on GET the confirmation form is rendered. -/
def delete_post (posts : List Post) (user : Nat)
    (is_post_method : Bool) (post_id : Nat) : Outcome × List Post :=
  match posts.find? (fun p => p.id == post_id) with
  | none => (.notFound, posts)
  | some post =>
    if user ≠ post.author then (.redirectDetail post_id, posts)
    else if is_post_method then
      (.redirectIndex, posts.eraseP (fun p => p.id == post_id))
    else (.render, posts)

/-- `edit_post(request, post_id)` for an authenticated user: 404 if the
post does not exist; a non-author is redirected to the post's detail
view; on a valid POST the bound form's changes (`update`) are saved to
the fetched row and the handler redirects to the detail view; otherwise
the form is rendered. -/
def edit_post (posts : List Post) (user : Nat)
    (is_post_method form_valid : Bool) (update : Post → Post)
    (post_id : Nat) : Outcome × List Post :=
  match posts.find? (fun p => p.id == post_id) with
  | none => (.notFound, posts)
  | some post =>
    if user ≠ post.author then (.redirectDetail post_id, posts)
    else if is_post_method then
      if form_valid then
        (.redirectDetail post_id,
          posts.map (fun q => if q.id == post.id then update post else q))
      else (.render, posts)
    else (.render, posts)

/-- `add_comment(request, post_id)` for an authenticated user: 404 if
the post does not exist; a valid form saves a new comment with
`author = request.user` and `post = post_id`; valid or not, the handler
redirects to the post's detail view. -/
def add_comment (posts : List Post) (comments : List Comment)
    (user : Nat) (post_id : Nat) (form_valid : Bool) (new_id : Nat) :
    Outcome × List Comment :=
  match posts.find? (fun p => p.id == post_id) with
  | none => (.notFound, comments)
  | some _ =>
    if form_valid then
      (.redirectDetail post_id,
        comments ++ [{ id := new_id, author := user, post := post_id }])
    else
      (.redirectDetail post_id, comments)

/-- `edit_comment(request, post_id, comment_id)` for an authenticated
user: the comment is fetched by `comment_id` alone; a non-author is
redirected to `post_detail(post_id)`; a valid POST saves the bound
form's changes (`update`) and redirects to `post_detail(post_id)`;
otherwise the form is rendered.  The `post_id` path parameter is never
compared with the comment's own `post` FK. -/
def edit_comment (comments : List Comment) (user : Nat)
    (is_post_method form_valid : Bool) (update : Comment → Comment)
    (post_id comment_id : Nat) : Outcome × List Comment :=
  match comments.find? (fun c => c.id == comment_id) with
  | none => (.notFound, comments)
  | some c =>
    if user ≠ c.author then (.redirectDetail post_id, comments)
    else if is_post_method then
      if form_valid then
        (.redirectDetail post_id,
          comments.map (fun d => if d.id == c.id then update c else d))
      else (.render, comments)
    else (.render, comments)

/-- `delete_comment(request, post_id, comment_id)` for an authenticated
user: the comment is fetched by `comment_id` alone; a non-author is
redirected to `post_detail(post_id)`; a POST deletes the row and
redirects to `post_detail(post_id)`; a GET renders the confirmation.
The `post_id` path parameter is never compared with the comment's own
`post` FK. -/
def delete_comment (comments : List Comment) (user : Nat)
    (is_post_method : Bool) (post_id comment_id : Nat) :
    Outcome × List Comment :=
  match comments.find? (fun c => c.id == comment_id) with
  | none => (.notFound, comments)
  | some c =>
    if user ≠ c.author then (.redirectDetail post_id, comments)
    else if is_post_method then
      (.redirectDetail post_id, comments.eraseP (fun d => d.id == comment_id))
    else (.render, comments)

/-- Written from the spec's words in §4.2, for comparison with
`resolvePage`: clamp an out-of-range integer page number to the nearest
valid page (first or last). -/
def nearestValidPage (count per : Nat) (n : Int) : Nat :=
  if n < 1 then 1
  else if (numPages count per : Int) < n then numPages count per
  else n.toNat

/-- Creating `n` comments on post `post_id` one after another through
`add_comment`, each with a valid form (fresh ids from the current
length). -/
def addNComments (posts : List Post) (comments : List Comment)
    (user : Nat) (post_id : Nat) : Nat → List Comment
  | 0 => comments
  | n + 1 =>
    let cs := addNComments posts comments user post_id n
    (add_comment posts cs user post_id true cs.length).2

/-! ### Example fixtures for the concrete witnesses -/

/-- A published and an unpublished category. -/
def exCats : List Category := [⟨1, "news", true⟩, ⟨2, "old", false⟩]

/-- A publicly visible post of user 10. -/
def exP1 : Post := ⟨1, 10, 1, 5, true⟩

/-- A post of user 10 in the unpublished category. -/
def exP2 : Post := ⟨2, 10, 2, 5, true⟩

/-- A future-dated post of user 11 (relative to `now = 10`). -/
def exP3 : Post := ⟨3, 11, 1, 50, true⟩

/-- An unpublished post of user 11. -/
def exP4 : Post := ⟨4, 11, 1, 3, false⟩

/-- The example post store. -/
def exPosts : List Post := [exP1, exP2, exP3, exP4]

/-- The example comment store: two comments on post 1, one on post 2. -/
def exComments : List Comment := [⟨1, 10, 1⟩, ⟨2, 11, 1⟩, ⟨3, 10, 2⟩]

/-- The example user store. -/
def exUsers : List User := [⟨10, "alice"⟩, ⟨11, "bob"⟩]

/-! ### Helper lemmas -/

/-- When `p` is the unique element of `l` satisfying `pred`, `find?`
returns it. -/
theorem find?_eq_some_of_unique {α : Type} {l : List α} {pred : α → Bool}
    {p : α} (hmem : p ∈ l) (hpred : pred p = true)
    (huniq : ∀ q ∈ l, pred q = true → q = p) :
    l.find? pred = some p := by
  induction l with
  | nil => cases hmem
  | cons a t ih =>
    by_cases ha : pred a = true
    · have : a = p := huniq a (List.mem_cons_self a t) ha
      subst this
      simp [List.find?_cons_of_pos, ha]
    · have hne : a ≠ p := fun h => ha (h ▸ hpred)
      have hmem' : p ∈ t := by
        rcases List.mem_cons.mp hmem with h | h
        · exact absurd h.symm hne
        · exact h
      rw [List.find?_cons_of_neg _ (by simpa using ha)]
      exact ih hmem' (fun q hq hpq => huniq q (List.mem_cons_of_mem a hq) hpq)

/-- The output of `get_annotated_posts` is sorted by `pub_date`
descending. -/
theorem get_annotated_posts_sorted (posts : List Post)
    (comments : List Comment) (cats : List Category) (now : Int)
    (sa : Bool) :
    (get_annotated_posts posts comments cats now sa).Pairwise
      (fun a b : Post × Nat => b.1.pub_date ≤ a.1.pub_date) :=
  (List.sorted_insertionSort pubDateGE _).imp (fun h => h)

/-- The output of `get_annotated_posts` is a permutation of the
annotation of its (optionally filtered) input. -/
theorem get_annotated_posts_perm (posts : List Post)
    (comments : List Comment) (cats : List Category) (now : Int)
    (sa : Bool) :
    (get_annotated_posts posts comments cats now sa).Perm
      (((if sa then posts else posts.filter (publiclyVisible cats now))).map
        (annotate comments)) :=
  List.perm_insertionSort pubDateGE _

/-! ### Claims -/

/-- C2: `get_annotated_posts` with `show_all = false` returns exactly the
posts satisfying `is_published ∧ pub_date ≤ now ∧ category.is_published`,
each annotated with its comment count, ordered by `pub_date` descending;
with `show_all = true` it returns the whole input annotated and ordered
the same way; an empty input yields an empty output. -/
theorem get_annotated_posts_spec (posts : List Post)
    (comments : List Comment) (cats : List Category) (now : Int) :
    (get_annotated_posts posts comments cats now false).Perm
        ((posts.filter (publiclyVisible cats now)).map (annotate comments))
    ∧ (get_annotated_posts posts comments cats now true).Perm
        (posts.map (annotate comments))
    ∧ (∀ sa, (get_annotated_posts posts comments cats now sa).Pairwise
        (fun a b : Post × Nat => b.1.pub_date ≤ a.1.pub_date))
    ∧ (∀ x ∈ get_annotated_posts posts comments cats now false,
        publiclyVisible cats now x.1 = true
          ∧ x.2 = commentCount comments x.1.id)
    ∧ (∀ sa, get_annotated_posts [] comments cats now sa = []) := by
  refine ⟨get_annotated_posts_perm posts comments cats now false,
    get_annotated_posts_perm posts comments cats now true,
    fun sa => get_annotated_posts_sorted posts comments cats now sa,
    ?_, ?_⟩
  · intro x hx
    have hx2 : x ∈ (posts.filter (publiclyVisible cats now)).map
        (annotate comments) :=
      (get_annotated_posts_perm posts comments cats now false).mem_iff.mp hx
    simp only [List.mem_map, List.mem_filter] at hx2
    obtain ⟨q, ⟨_, hvis⟩, rfl⟩ := hx2
    exact ⟨hvis, rfl⟩
  · intro sa
    cases sa <;> simp [get_annotated_posts]

/-- Witness for C2 at a concrete member of the filtered listing. -/
theorem get_annotated_posts_spec_witness :
    publiclyVisible exCats 10 exP1 = true
      ∧ (exP1, 2).2 = commentCount exComments exP1.id :=
  (get_annotated_posts_spec exPosts exComments exCats 10).2.2.2.1
    (exP1, 2) (by decide)

/-- C4 counterexample: for 25 items and page parameter `0` (out of
range), `get_paginator` resolves to the last page (3), not to the
nearest valid page, which is page 1. -/
theorem get_paginator_clamp_counterexample :
    (get_paginator (List.range 25) (PageParam.num 0) 10).1 = 3
      ∧ nearestValidPage (List.range 25).length 10 0 = 1
      ∧ (get_paginator (List.range 25) (PageParam.num 0) 10).1 ≠
          nearestValidPage (List.range 25).length 10 0 := by
  decide

/-- C4 (amended): `get_paginator` with page size 10 returns the 1-based
slice for the resolved page; an absent or non-integer page parameter
resolves to page 1; an integer page number above the last page resolves
to the last page; an integer page number below 1 also resolves to the
last page (not the first); in particular, for 25 items page 1 has 10
items, page 3 has 5 items, and page 4 clamps to page 3. -/
theorem get_paginator_spec {α : Type} (items : List α) :
    (∀ pa, (get_paginator items pa 10).2 =
        (items.drop (((get_paginator items pa 10).1 - 1) * 10)).take 10)
    ∧ (get_paginator items PageParam.missing 10).1 = 1
    ∧ (get_paginator items PageParam.notInt 10).1 = 1
    ∧ (∀ n : Int, n < 1 →
        (get_paginator items (PageParam.num n) 10).1 =
          numPages items.length 10)
    ∧ (∀ n : Int, (numPages items.length 10 : Int) < n →
        (get_paginator items (PageParam.num n) 10).1 =
          numPages items.length 10)
    ∧ (∀ n : Int, 1 ≤ n → n ≤ (numPages items.length 10 : Int) →
        (get_paginator items (PageParam.num n) 10).1 = n.toNat)
    ∧ ((get_paginator (List.range 25) (PageParam.num 1) 10).2.length = 10
        ∧ (get_paginator (List.range 25) (PageParam.num 3) 10).2.length = 5
        ∧ (get_paginator (List.range 25) (PageParam.num 4) 10).1 = 3) := by
  refine ⟨fun pa => rfl, rfl, rfl, ?_, ?_, ?_, by decide⟩
  · intro n hn
    simp only [get_paginator, resolvePage]
    rw [if_pos hn]
  · intro n hn
    have h1 : ¬ n < 1 := by omega
    simp only [get_paginator, resolvePage]
    rw [if_neg h1, if_pos hn]
  · intro n hn1 hn2
    have h1 : ¬ n < 1 := by omega
    have h2 : ¬ (numPages items.length 10 : Int) < n := by omega
    simp only [get_paginator, resolvePage]
    rw [if_neg h1, if_neg h2]

/-- Witness for C4's amended statement: page 0 of 25 items resolves to
the last page. -/
theorem get_paginator_spec_witness :
    (get_paginator (List.range 25) (PageParam.num 0) 10).1 =
      numPages (List.range 25).length 10 :=
  (get_paginator_spec (List.range 25)).2.2.2.1 0 (by decide)

/-- C1: with unique post ids, the post-detail view renders the post iff
the viewer is its author or the post is publicly visible; in every other
case, including anonymous viewers of unpublished posts, the outcome is
`notFound` (never `forbidden`). -/
theorem post_detail_spec (posts : List Post) (cats : List Category)
    (viewer : Option Nat) (now : Int) (pid : Nat)
    (hnodup : (posts.map Post.id).Nodup) :
    (∀ p, posts.find? (fun q => q.id == pid) = some p →
        post_detail posts cats viewer now pid =
          (if viewer == some p.author || publiclyVisible cats now p
            then DetailResult.render p else DetailResult.notFound))
    ∧ (posts.find? (fun q => q.id == pid) = none →
        post_detail posts cats viewer now pid = DetailResult.notFound) := by
  constructor
  · intro p hp
    have hpmem : p ∈ posts := List.mem_of_find?_eq_some hp
    have hpid : p.id = pid := by simpa using List.find?_some hp
    have huniq : ∀ q ∈ posts, q.id = pid → q = p := by
      intro q hq hqid
      exact List.inj_on_of_nodup_map hnodup hq hpmem (by rw [hqid, hpid])
    cases viewer with
    | some u =>
      by_cases hau : p.author = u
      · simp [post_detail, hp, hau]
      · by_cases hvis : publiclyVisible cats now p = true
        · simp [post_detail, hp, hvis, hau, Ne.symm hau]
        · have hfilter : (posts.filter fun q =>
              q.id == pid && publiclyVisible cats now q) = [] := by
            rw [List.filter_eq_nil_iff]
            intro a ha hcontra
            simp only [Bool.and_eq_true, beq_iff_eq] at hcontra
            have := huniq a ha hcontra.1
            subst this
            exact hvis hcontra.2
          simp [post_detail, hp, hvis, hau, Ne.symm hau, hfilter]
    | none =>
      by_cases hvis : publiclyVisible cats now p = true
      · have hfind : (posts.filter (publiclyVisible cats now)).find?
            (fun q => q.id == pid) = some p := by
          apply find?_eq_some_of_unique (List.mem_filter.mpr ⟨hpmem, hvis⟩)
            (by simp [hpid])
          intro q hq hqid
          exact huniq q (List.mem_filter.mp hq).1 (by simpa using hqid)
        simp [post_detail, hfind, hvis]
      · have hfind : (posts.filter (publiclyVisible cats now)).find?
            (fun q => q.id == pid) = none := by
          rw [List.find?_eq_none]
          intro a ha hcontra
          simp only [beq_iff_eq] at hcontra
          have := huniq a (List.mem_filter.mp ha).1 hcontra
          subst this
          exact hvis (List.mem_filter.mp ha).2
        simp [post_detail, hfind, hvis]
  · intro hnone
    have hall := List.find?_eq_none.mp hnone
    cases viewer with
    | some u => simp [post_detail, hnone]
    | none =>
      have hfind : (posts.filter (publiclyVisible cats now)).find?
          (fun q => q.id == pid) = none := by
        rw [List.find?_eq_none]
        intro a ha
        exact hall a (List.mem_filter.mp ha).1
      simp [post_detail, hfind]

/-- Witness for C1: an authenticated non-author requesting an invisible
post (post 2, whose category is unpublished) gets `notFound`. -/
theorem post_detail_spec_witness :
    post_detail exPosts exCats (some 11) 10 2 = DetailResult.notFound := by
  have h := (post_detail_spec exPosts exCats (some 11) 10 2 (by decide)).1
    exP2 (by decide)
  simpa using h

/-- C3: an authenticated non-author issuing any request (GET or POST,
valid or invalid form) against the edit-post or delete-post route is
redirected to the post's detail view and the post store is unchanged. -/
theorem nonauthor_edit_delete_spec (posts : List Post) (user : Nat)
    (m v : Bool) (upd : Post → Post) (pid : Nat) (p : Post)
    (hfind : posts.find? (fun q => q.id == pid) = some p)
    (hauthor : p.author ≠ user) :
    delete_post posts user m pid = (Outcome.redirectDetail pid, posts)
      ∧ edit_post posts user m v upd pid =
          (Outcome.redirectDetail pid, posts) := by
  have hne : user ≠ p.author := Ne.symm hauthor
  constructor
  · simp [delete_post, hfind, hne]
  · simp [edit_post, hfind, hne]

/-- Witness for C3: user 11 attempting to delete or edit post 1 (owned
by user 10) is redirected to the detail view with the store intact. -/
theorem nonauthor_edit_delete_spec_witness :
    delete_post exPosts 11 true 1 = (Outcome.redirectDetail 1, exPosts)
      ∧ edit_post exPosts 11 true true id 1 =
          (Outcome.redirectDetail 1, exPosts) :=
  nonauthor_edit_delete_spec exPosts 11 true true id 1 exP1
    (by decide) (by decide)

/-- C6: for an authenticated user and an existing post, `add_comment`
redirects to the post's detail view whether or not the form is valid; a
valid form appends exactly one comment with `author` the current user
and `post` the requested post; an invalid form leaves the comment store
unchanged (and no form is re-rendered). -/
theorem add_comment_spec (posts : List Post) (comments : List Comment)
    (user pid : Nat) (valid : Bool) (nid : Nat) (p : Post)
    (hfind : posts.find? (fun q => q.id == pid) = some p) :
    (add_comment posts comments user pid valid nid).1 =
        Outcome.redirectDetail pid
      ∧ (valid = true →
          (add_comment posts comments user pid valid nid).2 =
            comments ++ [{ id := nid, author := user, post := pid }])
      ∧ (valid = false →
          (add_comment posts comments user pid valid nid).2 = comments) := by
  refine ⟨?_, ?_, ?_⟩ <;> cases valid <;> simp [add_comment, hfind]

/-- Witness for C6: user 11 commenting on post 1, once with a valid and
once with an invalid form. -/
theorem add_comment_spec_witness :
    (add_comment exPosts exComments 11 1 false 4).1 =
        Outcome.redirectDetail 1
      ∧ (add_comment exPosts exComments 11 1 false 4).2 = exComments :=
  ⟨(add_comment_spec exPosts exComments 11 1 false 4 exP1 (by decide)).1,
    (add_comment_spec exPosts exComments 11 1 false 4 exP1 (by decide)).2.2
      rfl⟩

/-- C10: `edit_comment` and `delete_comment` locate the comment by
`comment_id` alone; the `post_id` path parameter is never validated
against the comment's own `post` foreign key: the resulting store never
depends on `post_id`, and even when the found comment belongs to a
different post the ownership check, the mutation and the redirect target
all use the URL's `post_id`. -/
theorem comment_post_id_unchecked (comments : List Comment) (user : Nat)
    (m v : Bool) (upd : Comment → Comment) (pid pid2 cid : Nat)
    (c : Comment)
    (hfind : comments.find? (fun d => d.id == cid) = some c)
    (hmismatch : c.post ≠ pid) :
    (edit_comment comments user m v upd pid cid).2 =
        (edit_comment comments user m v upd pid2 cid).2
      ∧ (delete_comment comments user m pid cid).2 =
          (delete_comment comments user m pid2 cid).2
      ∧ (user ≠ c.author →
          edit_comment comments user m v upd pid cid =
              (Outcome.redirectDetail pid, comments)
            ∧ delete_comment comments user m pid cid =
                (Outcome.redirectDetail pid, comments))
      ∧ (user = c.author → m = true →
          delete_comment comments user m pid cid =
              (Outcome.redirectDetail pid,
                comments.eraseP (fun d => d.id == cid))
            ∧ (v = true →
                edit_comment comments user m v upd pid cid =
                  (Outcome.redirectDetail pid,
                    comments.map
                      (fun d => if d.id == c.id then upd c else d)))) := by
  refine ⟨?_, ?_, ?_, ?_⟩
  · by_cases hu : user = c.author
    · cases m <;> cases v <;> simp [edit_comment, hfind, hu]
    · simp [edit_comment, hfind, hu]
  · by_cases hu : user = c.author
    · cases m <;> simp [delete_comment, hfind, hu]
    · simp [delete_comment, hfind, hu]
  · intro hu
    constructor
    · simp [edit_comment, hfind, hu]
    · simp [delete_comment, hfind, hu]
  · intro hu hm
    subst hm
    constructor
    · simp [delete_comment, hfind, hu]
    · intro hv
      subst hv
      simp [edit_comment, hfind, hu]

/-- Witness for C10: comment 7 belongs to post 2, yet its author deletes
it through the URL of post 999 and is redirected to post 999's detail
view. -/
theorem comment_post_id_unchecked_witness :
    delete_comment [⟨7, 11, 2⟩] 11 true 999 7 =
      (Outcome.redirectDetail 999,
        List.eraseP (fun d => d.id == 7) [⟨7, 11, 2⟩]) :=
  ((comment_post_id_unchecked [⟨7, 11, 2⟩] 11 true true id 999 0 7
      ⟨7, 11, 2⟩ (by decide) (by decide)).2.2.2 rfl rfl).1

/-- C5: for an existing profile user `u` and a non-publicly-visible post
of `u`, the profile listing contains that post iff the viewer is
authenticated and is exactly `u`; any other viewer sees only publicly
visible posts of `u` in the listing. -/
theorem profile_visibility_spec (users : List User) (posts : List Post)
    (comments : List Comment) (cats : List Category) (viewer : Option Nat)
    (now : Int) (username : String) (u : User) (p : Post)
    (hu : users.find? (fun w => w.username == username) = some u)
    (hp : p ∈ posts) (hauthor : p.author = u.id)
    (hinvisible : publiclyVisible cats now p = false) :
    (∃ l, profilePostsList users posts comments cats viewer now username =
          some l
        ∧ (annotate comments p ∈ l ↔ viewer = some u.id))
    ∧ (viewer ≠ some u.id →
        ∀ l, profilePostsList users posts comments cats viewer now
            username = some l →
          ∀ x ∈ l, publiclyVisible cats now x.1 = true
            ∧ x.1.author = u.id) := by
  have hl : profilePostsList users posts comments cats viewer now username =
      some (get_annotated_posts (posts.filter fun q => q.author == u.id)
        comments cats now (viewer == some u.id)) := by
    simp [profilePostsList, hu]
  by_cases hv : viewer = some u.id
  · have hb : (viewer == some u.id) = true := by simp [hv]
    rw [hb] at hl
    have hmem : annotate comments p ∈ get_annotated_posts
        (posts.filter fun q => q.author == u.id) comments cats now true := by
      rw [(get_annotated_posts_perm (posts.filter fun q => q.author == u.id)
        comments cats now true).mem_iff]
      simp only [if_true]
      exact List.mem_map_of_mem _
        (List.mem_filter.mpr ⟨hp, by simp [hauthor]⟩)
    exact ⟨⟨_, hl, iff_of_true hmem hv⟩, fun hne => absurd hv hne⟩
  · have hb : (viewer == some u.id) = false := by simpa using hv
    rw [hb] at hl
    have hnotmem : annotate comments p ∉ get_annotated_posts
        (posts.filter fun q => q.author == u.id) comments cats now false := by
      intro hmem
      have hmem2 := (get_annotated_posts_perm
        (posts.filter fun q => q.author == u.id) comments cats now
        false).mem_iff.mp hmem
      simp only [Bool.false_eq_true, if_false] at hmem2
      rcases List.mem_map.mp hmem2 with ⟨q, hq, heq⟩
      have hqp : q = p := congrArg Prod.fst heq
      subst hqp
      have := (List.mem_filter.mp hq).2
      rw [hinvisible] at this
      cases this
    refine ⟨⟨_, hl, iff_of_false hnotmem hv⟩, ?_⟩
    intro _ l hleq x hx
    rw [hl] at hleq
    obtain rfl : get_annotated_posts
        (posts.filter fun q => q.author == u.id) comments cats now false =
          l := by
      injection hleq
    have hx2 := (get_annotated_posts_perm
      (posts.filter fun q => q.author == u.id) comments cats now
      false).mem_iff.mp hx
    simp only [Bool.false_eq_true, if_false] at hx2
    rcases List.mem_map.mp hx2 with ⟨q, hq, rfl⟩
    have h1 := List.mem_filter.mp hq
    have h2 := List.mem_filter.mp h1.1
    exact ⟨h1.2, by simpa using h2.2⟩

/-- Witness for C5: user 11 viewing their own profile sees their
future-dated post 3. -/
theorem profile_visibility_spec_witness :
    ∃ l, profilePostsList exUsers exPosts exComments exCats (some 11) 10
          "bob" = some l
        ∧ (annotate exComments exP3 ∈ l ↔ (some 11 : Option Nat) = some 11) :=
  (profile_visibility_spec exUsers exPosts exComments exCats (some 11) 10
    "bob" ⟨11, "bob"⟩ exP3 (by decide) (by decide) (by decide)
    (by decide)).1

/-- C7: with unique category slugs, the category-posts view is a 404
exactly when every category carrying the requested slug (in particular,
none at all) is unpublished; for a published category it lists that
category's publicly visible posts. -/
theorem category_posts_spec (cats : List Category) (posts : List Post)
    (comments : List Comment) (now : Int) (slug : String)
    (hnodup : (cats.map Category.slug).Nodup) :
    (categoryPostsList cats posts comments now slug = none ↔
        ∀ c ∈ cats, c.slug = slug → c.is_published = false)
    ∧ (∀ c ∈ cats, c.slug = slug → c.is_published = true →
        ∃ l, categoryPostsList cats posts comments now slug = some l
          ∧ ∀ x ∈ l, publiclyVisible cats now x.1 = true
              ∧ x.1.category = c.id) := by
  constructor
  · constructor
    · intro hnone c hc hslug
      by_contra hpub
      have hpub' : c.is_published = true := by
        cases hb : c.is_published
        · exact absurd hb hpub
        · rfl
      have hsome : (cats.find? fun d => d.slug == slug &&
          d.is_published).isSome :=
        List.find?_isSome.mpr ⟨c, hc, by simp [hslug, hpub']⟩
      rcases Option.isSome_iff_exists.mp hsome with ⟨d, hd⟩
      simp [categoryPostsList, hd] at hnone
    · intro hall
      have hfind : cats.find? (fun d => d.slug == slug && d.is_published) =
          none := by
        rw [List.find?_eq_none]
        intro d hd hcontra
        simp only [Bool.and_eq_true, beq_iff_eq] at hcontra
        have := hall d hd hcontra.1
        rw [this] at hcontra
        cases hcontra.2
      simp [categoryPostsList, hfind]
  · intro c hc hslug hpub
    have hfind : cats.find? (fun d => d.slug == slug && d.is_published) =
        some c := by
      apply find?_eq_some_of_unique hc (by simp [hslug, hpub])
      intro q hq hpred
      simp only [Bool.and_eq_true, beq_iff_eq] at hpred
      exact List.inj_on_of_nodup_map hnodup hq hc (by rw [hpred.1, hslug])
    refine ⟨get_annotated_posts (posts.filter fun p => p.category == c.id)
      comments cats now false, by simp [categoryPostsList, hfind], ?_⟩
    intro x hx
    have hx2 := (get_annotated_posts_perm
      (posts.filter fun p => p.category == c.id) comments cats now
      false).mem_iff.mp hx
    simp only [Bool.false_eq_true, if_false] at hx2
    rcases List.mem_map.mp hx2 with ⟨q, hq, rfl⟩
    have h1 := List.mem_filter.mp hq
    have h2 := List.mem_filter.mp h1.1
    exact ⟨h1.2, by simpa using h2.2⟩

/-- Witness for C7: the published category `news` lists its publicly
visible posts. -/
theorem category_posts_spec_witness :
    ∃ l, categoryPostsList exCats exPosts exComments 10 "news" = some l
      ∧ ∀ x ∈ l, publiclyVisible exCats 10 x.1 = true
          ∧ x.1.category = (⟨1, "news", true⟩ : Category).id :=
  (category_posts_spec exCats exPosts exComments 10 "news" (by decide)).2
    ⟨1, "news", true⟩ (by decide) rfl rfl

/-- Each round of `addNComments` on an existing post raises the comment
count of that post by one. -/
theorem addNComments_count (posts : List Post) (comments : List Comment)
    (user pid : Nat)
    (hsome : (posts.find? (fun q => q.id == pid)).isSome) (n : Nat) :
    commentCount (addNComments posts comments user pid n) pid =
      commentCount comments pid + n := by
  induction n with
  | zero => simp [addNComments]
  | succ k ih =>
    rcases Option.isSome_iff_exists.mp hsome with ⟨p, hp⟩
    have hstep : addNComments posts comments user pid (k + 1) =
        addNComments posts comments user pid k ++
          [{ id := (addNComments posts comments user pid k).length,
             author := user, post := pid }] := by
      simp [addNComments, add_comment, hp]
    rw [hstep]
    simp only [commentCount, List.filter_append, List.length_append]
    have : commentCount (addNComments posts comments user pid k) pid =
        commentCount comments pid + k := ih
    simp only [commentCount] at this
    rw [this]
    simp
    omega

/-- C8: starting from a store with no comments on post `p`, creating `n`
comments on `p` through `add_comment` makes the `comment_count`
annotation of `p` in `get_annotated_posts` equal to `n`. -/
theorem comment_count_roundtrip (posts : List Post)
    (comments : List Comment) (cats : List Category) (user : Nat)
    (now : Int) (p : Post) (hp : p ∈ posts)
    (hzero : commentCount comments p.id = 0) (n : Nat) :
    commentCount (addNComments posts comments user p.id n) p.id = n
      ∧ (p, n) ∈ get_annotated_posts posts
          (addNComments posts comments user p.id n) cats now true := by
  have hsome : (posts.find? (fun q => q.id == p.id)).isSome :=
    List.find?_isSome.mpr ⟨p, hp, by simp⟩
  have hcount := addNComments_count posts comments user p.id hsome n
  rw [hzero, Nat.zero_add] at hcount
  refine ⟨hcount, ?_⟩
  rw [(get_annotated_posts_perm posts
    (addNComments posts comments user p.id n) cats now true).mem_iff]
  simp only [if_true]
  have hann : annotate (addNComments posts comments user p.id n) p =
      (p, n) := by
    simp [annotate, hcount]
  rw [← hann]
  exact List.mem_map_of_mem _ hp

/-- Witness for C8: five comments on post 1 yield annotation 5. -/
theorem comment_count_roundtrip_witness :
    commentCount (addNComments exPosts [] 11 exP1.id 5) exP1.id = 5
      ∧ (exP1, 5) ∈ get_annotated_posts exPosts
          (addNComments exPosts [] 11 exP1.id 5) exCats 10 true :=
  comment_count_roundtrip exPosts [] exCats 11 10 exP1 (by decide)
    (by decide) 5

/-- C9: a valid authenticated create-post submission persists the form's
post with `author` set to the requesting user, redirects to that user's
profile, and the new post then appears in the user's own profile listing
(the `show_all = true` query), even if unpublished or future-dated. -/
theorem create_post_profile_spec (users : List User) (posts : List Post)
    (comments : List Comment) (cats : List Category) (now : Int)
    (user : Nat) (form_post : Post) (uname : String) (u : User)
    (hu : users.find? (fun w => w.username == uname) = some u)
    (huid : u.id = user) :
    (create_post posts user true true form_post).1 =
        Outcome.redirectProfile user
      ∧ ({ form_post with author := user } : Post).author = user
      ∧ ∃ l, profilePostsList users
            (create_post posts user true true form_post).2 comments cats
            (some user) now uname = some l
          ∧ annotate comments { form_post with author := user } ∈ l := by
  refine ⟨rfl, rfl, ?_⟩
  have hb : ((some user : Option Nat) == some u.id) = true := by
    simp [huid]
  refine ⟨get_annotated_posts
    (((create_post posts user true true form_post).2).filter
      fun q => q.author == u.id) comments cats now true,
    by simp [profilePostsList, hu, hb], ?_⟩
  rw [(get_annotated_posts_perm
    (((create_post posts user true true form_post).2).filter
      fun q => q.author == u.id) comments cats now true).mem_iff]
  simp only [if_true]
  refine List.mem_map_of_mem _ (List.mem_filter.mpr ⟨?_, by simp [huid]⟩)
  exact List.mem_append_right _ (List.mem_singleton_self _)

/-- Witness for C9: user 11 creates an unpublished future-dated post and
finds it in their own profile listing. -/
theorem create_post_profile_spec_witness :
    (create_post exPosts 11 true true ⟨9, 0, 1, 99, false⟩).1 =
        Outcome.redirectProfile 11
      ∧ ({ (⟨9, 0, 1, 99, false⟩ : Post) with author := 11 } : Post).author
          = 11
      ∧ ∃ l, profilePostsList exUsers
            (create_post exPosts 11 true true ⟨9, 0, 1, 99, false⟩).2
            exComments exCats (some 11) 10 "bob" = some l
          ∧ annotate exComments
              { (⟨9, 0, 1, 99, false⟩ : Post) with author := 11 } ∈ l :=
  create_post_profile_spec exUsers exPosts exComments exCats 10 11
    ⟨9, 0, 1, 99, false⟩ "bob" ⟨11, "bob"⟩ (by decide) rfl

end Blogicum
